import Mathlib

/-!
Verification of the `ai-fallback` fallback/retry orchestration engine
(`src/index.ts`) against its natural-language specification.

The TypeScript source is shallowly embedded:
* host-language (JavaScript) error values become the inductive `JSValue`;
* the default error classifier `defaultShouldRetryThisError` is translated
  clause by clause, including the `TypeError` raised when `error.message`
  is truthy but not a string (modelled with `Except Unit Bool`);
* the mutable `FallbackModel` state becomes the record `FallbackState`,
  threaded explicitly through `checkAndResetModel`, `switchToNextModel`,
  the `retry` loop, `doGenerate` and the stream relay `doStreamAux`;
* backend behaviour is an oracle `env : Nat → Except JSValue _` giving, per
  model index, either a dispatch-time rejection or a result;
* a backend stream is its list of chunks plus how it terminates; the
  caller-facing wrapped stream is the list of chunks enqueued plus the
  terminal event (close or error);
* `Date.now()` is a clock supplied by the caller (one reading per call,
  since the source reads the clock once per call, in `checkAndResetModel`);
* the recursive stream hand-off can genuinely diverge in the source (the
  abort check only fires at index 0), so the Lean model takes a fuel
  argument and returns `none` when the fuel is exhausted; every theorem
  about a terminating run proves `... = some _`, which shows the fuel
  given was sufficient.
-/

namespace AiFallback

/-! ## JavaScript values (the host language's error values) -/

/-- A JavaScript value, as far as the error classifier can observe it:
`null`, `undefined`, numbers (integral ones; the classifier only compares
against integral status codes), strings, booleans and plain objects given
as association lists. -/
inductive JSValue where
  | nullV
  | undefV
  | numV (n : Int)
  | strV (s : String)
  | boolV (b : Bool)
  | objV (fields : List (String × JSValue))

/-- Property access with optional chaining, `v?.[k]`: reading any property
of a non-object (or a missing property) yields `undefined`. -/
def jsGet (v : JSValue) (k : String) : JSValue :=
  match v with
  | .objV fields =>
    match fields.lookup k with
    | some x => x
    | none => .undefV
  | _ => .undefV

/-- JavaScript truthiness. -/
def jsTruthy : JSValue → Bool
  | .nullV => false
  | .undefV => false
  | .numV n => n ≠ 0
  | .strV s => s ≠ ""
  | .boolV b => b
  | .objV _ => true

/-- `typeof v === 'object'` (true for `null` as well, as in JavaScript). -/
def jsIsObject : JSValue → Bool
  | .objV _ => true
  | .nullV => true
  | _ => false

/-- Lower-casing, `s.toLowerCase()` (ASCII, which covers every string the
source compares against). -/
def jsToLower (s : String) : String :=
  String.mk (s.data.map Char.toLower)

/-- Whether the character list `text` starts with the character list `pat`. -/
def charsStartWith : List Char → List Char → Bool
  | [], _ => true
  | _ :: _, [] => false
  | p :: ps, c :: cs => p == c && charsStartWith ps cs

/-- Whether `text` contains `pat` as a contiguous run. -/
def charsContain (pat : List Char) : List Char → Bool
  | [] => charsStartWith pat []
  | c :: cs => charsStartWith pat (c :: cs) || charsContain pat cs

/-- `s.includes(pat)`. -/
def strContains (s pat : String) : Bool :=
  charsContain pat.data s.data

/-! ## JSON serialization (`JSON.stringify`), used by the classifier on
structured non-string errors. Escapes quotes and backslashes (the control
character escapes of full JSON are irrelevant to the classifier's
substring tests). Fields holding `undefined` are omitted, as in
JavaScript. -/

def jsonEscapeChar (c : Char) : String :=
  if c = '"' then "\\\""
  else if c = '\\' then "\\\\"
  else String.singleton c

def jsonQuote (s : String) : String :=
  "\"" ++ String.join (s.data.map jsonEscapeChar) ++ "\""

mutual

def jsonStringify : JSValue → String
  | .nullV => "null"
  | .undefV => "null"
  | .numV n => toString n
  | .strV s => jsonQuote s
  | .boolV b => if b then "true" else "false"
  | .objV fields => "\x7b" ++ String.intercalate "," (jsonFieldStrings fields) ++ "\x7d"

def jsonFieldStrings : List (String × JSValue) → List String
  | [] => []
  | (_, .undefV) :: rest => jsonFieldStrings rest
  | (k, v) :: rest => (jsonQuote k ++ ":" ++ jsonStringify v) :: jsonFieldStrings rest

end

/-! ## The default error classifier (`defaultShouldRetryThisError`) -/

/-- `retryableStatusCodes` from the source: 401, 403, 408, 409, 413, 429,
500 (codes above 500 are admitted by the separate `statusCode > 500`
test). -/
def retryableStatusCodes : List Int :=
  [401, 403, 408, 409, 413, 429, 500]

/-- `retryableErrors` from the source: the lower-case substrings whose
presence in an error message marks the error as retryable. -/
def retryableErrors : List String :=
  ["overloaded", "service unavailable", "bad gateway", "too many requests",
   "internal server error", "gateway timeout", "rate_limit", "wrong-key",
   "unexpected", "capacity", "timeout", "server_error",
   "429", "500", "502", "503", "504"]

/-- `retryableStatusCodes.includes(statusCode)`: `Array.prototype.includes`
uses strict (SameValueZero) equality, so only a numeric status code can
match the numeric list entries. -/
def statusCodeInRetryList : JSValue → Bool
  | .numV n => retryableStatusCodes.contains n
  | _ => false

/-- `statusCode > 500`: JavaScript relational comparison coerces; a numeric
string is compared by its numeric value, anything else compares as `NaN`
(hence false). -/
def statusCodeAbove500 : JSValue → Bool
  | .numV n => 500 < n
  | .strV s =>
    match s.toInt? with
    | some n => 500 < n
    | none => false
  | _ => false

/-- Whether `retryableErrors.some((errType) => errorString.includes(errType))`
holds of the (already lower-cased) string. -/
def matchesRetryableText (errorString : String) : Bool :=
  retryableErrors.any fun errType => strContains errorString errType

/-- `defaultShouldRetryThisError(error)` translated clause by clause.
`.error ()` is the `TypeError` JavaScript raises at
`error.message.toLowerCase()` when `message` is truthy but not a string;
every other path returns a boolean. -/
def defaultShouldRetryThisError (error : JSValue) : Except Unit Bool :=
  let statusCode := jsGet error "statusCode"
  if jsTruthy statusCode && (statusCodeInRetryList statusCode || statusCodeAbove500 statusCode) then
    .ok true
  else if jsTruthy (jsGet error "message") then
    match jsGet error "message" with
    | .strV s => .ok (matchesRetryableText (jsToLower s))
    | _ => .error ()
  else if jsTruthy error && jsIsObject error then
    .ok (matchesRetryableText (jsToLower (jsonStringify error)))
  else
    .ok false

/-! ## Fallback model state (`FallbackModel`'s mutable fields) -/

/-- The mutable state of a `FallbackModel`, together with the settings the
orchestration logic reads. `numModels` stands for
`settings.models.length`; the backend handles themselves are supplied to
each operation as an oracle indexed by model index. -/
structure FallbackState where
  numModels : Nat
  currentModelIndex : Nat
  lastModelReset : Int
  modelResetInterval : Int
  retryAfterOutput : Bool
deriving Repr, DecidableEq

/-- The constructor: fields are initialised (`currentModelIndex = 0`,
`lastModelReset = Date.now()`, `modelResetInterval ?? 3 * 60 * 1000`,
`retryAfterOutput ?? true`) and then
`if (!this.settings.models[this.currentModelIndex]) throw`. -/
def mkFallbackState (numModels : Nat) (modelResetInterval : Option Int)
    (retryAfterOutput : Option Bool) (now : Int) : Except String FallbackState :=
  if numModels = 0 then
    .error "No models available in settings"
  else
    .ok { numModels := numModels
          currentModelIndex := 0
          lastModelReset := now
          modelResetInterval := modelResetInterval.getD (3 * 60 * 1000)
          retryAfterOutput := retryAfterOutput.getD true }

/-- `checkAndResetModel()`: with `now = Date.now()`, reset to the primary
model when the reset interval has elapsed and the current model is not the
primary. -/
def checkAndResetModel (st : FallbackState) (now : Int) : FallbackState :=
  if st.modelResetInterval ≤ now - st.lastModelReset ∧ st.currentModelIndex ≠ 0 then
    { st with currentModelIndex := 0, lastModelReset := now }
  else
    st

/-- `switchToNextModel()`: advance the current index cyclically. (No other
field is touched.) -/
def switchToNextModel (st : FallbackState) : FallbackState :=
  { st with currentModelIndex := (st.currentModelIndex + 1) % st.numModels }

/-! ## The retry loop (`FallbackModel.retry`) -/

/-- Trace of one `retry` call: the value returned or error thrown, the
final state, the model indices attempted in order, and the
`onError(error, modelId)` notifications issued (recorded as the error and
the failing model's index). -/
structure RetryTrace (α : Type) where
  result : Except JSValue α
  state : FallbackState
  attempts : List Nat
  notified : List (JSValue × Nat)

/-- The body of `retry`'s `do … while (true)` loop. `fn` is the attempt
(`() => models[this.currentModelIndex].doGenerate(options)` reads the
index current at attempt time), `sr` the resolved classifier
(`settings.shouldRetryThisError || defaultShouldRetryThisError`),
`initialModel` the index recorded on entry. The loop in the source has no
built-in bound beyond the cycle check, so the model carries fuel for the
recursive iterations and answers `none` if it runs out; theorems conclude
`= some _`, proving their fuel sufficient. -/
def retryGo {α : Type} (sr : JSValue → Bool) (fn : Nat → Except JSValue α)
    (initialModel : Nat) : FallbackState → Nat → Option (RetryTrace α)
  | _, 0 => none
  | st, fuel + 1 =>
    match fn st.currentModelIndex with
    | .ok a => some ⟨.ok a, st, [st.currentModelIndex], []⟩
    | .error e =>
      if sr e = false then
        some ⟨.error e, st, [st.currentModelIndex], []⟩
      else
        if (switchToNextModel st).currentModelIndex = initialModel then
          some ⟨.error e, switchToNextModel st, [st.currentModelIndex],
                [(e, st.currentModelIndex)]⟩
        else
          match retryGo sr fn initialModel (switchToNextModel st) fuel with
          | none => none
          | some t =>
            some ⟨t.result, t.state, st.currentModelIndex :: t.attempts,
                  (e, st.currentModelIndex) :: t.notified⟩

/-- `retry(fn)`: record `initialModel = this.currentModelIndex` and run the
loop. The loop runs at most `numModels` iterations (after that many
switches the index is back at `initialModel`), so fuel `numModels + 1`
(one unit per iteration) always suffices. -/
def retry {α : Type} (sr : JSValue → Bool) (fn : Nat → Except JSValue α)
    (st : FallbackState) : Option (RetryTrace α) :=
  retryGo sr fn st.currentModelIndex st (st.numModels + 1)

/-- `doGenerate(options)`: `checkAndResetModel()` then
`retry(() => models[currentModelIndex].doGenerate(options))`. `gen i` is
the outcome of backend `i`'s `doGenerate`. -/
def doGenerate {α : Type} (sr : JSValue → Bool) (gen : Nat → Except JSValue α)
    (st : FallbackState) (now : Int) : Option (RetryTrace α) :=
  retry sr gen (checkAndResetModel st now)

/-! ## The stream relay (`FallbackModel.doStream`) -/

/-- One `LanguageModelV2StreamPart` as the relay loop observes it:
`stream-start` metadata (`value.type === 'stream-start'`), an ordinary
content chunk (any other `type`, no `error` property), or a chunk carrying
an in-band `error` property (its `type`, e.g. `'error'`, is not
`'stream-start'`). -/
inductive Chunk where
  | streamStart
  | content (text : String)
  | errorChunk (e : JSValue)

/-- The `value.error` read guarded by `'error' in value`. -/
def chunkErrorVal : Chunk → Option JSValue
  | .errorChunk e => some e
  | _ => none

/-- `value?.type === 'stream-start'`. -/
def chunkIsStreamStart : Chunk → Bool
  | .streamStart => true
  | _ => false

/-- How a backend's chunk sequence ends: a clean `done`, or the pending
read rejecting with an error (transport-level failure). -/
inductive StreamEnd where
  | normal
  | errored (e : JSValue)

/-- A backend stream: the chunks its reader yields, then how it ends. -/
structure BackendStream where
  chunks : List Chunk
  ending : StreamEnd

/-- Result of relaying one backend's chunks: either all chunks were
forwarded (carrying the final `hasStreamedAny`), or a failure was detected
after forwarding a prefix. -/
inductive RelayOutcome where
  | completed (emitted : List Chunk) (hasAny : Bool)
  | failed (emitted : List Chunk) (hasAny : Bool) (e : JSValue)

/-- Prepend a forwarded chunk to a relay outcome's emitted list. -/
def consEmit (c : Chunk) : RelayOutcome → RelayOutcome
  | .completed em h => .completed (c :: em) h
  | .failed em h e => .failed (c :: em) h e

/-- The `while (true)` read loop of the wrapped stream: before any real
output (`!hasStreamedAny`), a chunk whose `error` property the classifier
accepts is thrown (not enqueued); every other chunk is enqueued, and any
chunk other than `stream-start` sets `hasStreamedAny`. -/
def relayChunks (sr : JSValue → Bool) (hasAny : Bool) : List Chunk → RelayOutcome
  | [] => .completed [] hasAny
  | c :: cs =>
    match chunkErrorVal c with
    | some e =>
      if !hasAny && sr e then
        .failed [] hasAny e
      else
        consEmit c (relayChunks sr (hasAny || !chunkIsStreamStart c) cs)
    | none => consEmit c (relayChunks sr (hasAny || !chunkIsStreamStart c) cs)

/-- Relaying one backend stream: run the read loop over its chunks; if the
loop forwards everything, a clean ending closes the stream and an errored
ending is the thrown read rejection. -/
def runAttempt (sr : JSValue → Bool) (s : BackendStream) : RelayOutcome :=
  match relayChunks sr false s.chunks with
  | .failed em h e => .failed em h e
  | .completed em h =>
    match s.ending with
    | .normal => .completed em h
    | .errored e => .failed em h e

/-- What the caller observes of the wrapped stream: the chunks enqueued, and
whether it was closed (`.ok ()`) or errored. -/
structure CallerStream where
  emitted : List Chunk
  terminal : Except JSValue Unit

/-- Full trace of one `doStream` call: the promise outcome (rejection, or
the caller-facing stream), the final state, the model indices whose
`doStream` was dispatched (in order, recursion included), and the
`onError` notifications issued. -/
structure StreamCallResult where
  outcome : Except JSValue CallerStream
  state : FallbackState
  dispatched : List Nat
  notified : List (JSValue × Nat)

/-- `doStream(options)`: `checkAndResetModel()`, then `retry` around the
dispatch `models[currentModelIndex].doStream(options)` (given by the
oracle `env`), then the wrapped stream relays the chunks. On a detected
failure the catch handler notifies `onError`, and — whenever no output was
streamed yet or `retryAfterOutput` is set — switches to the next model,
aborts with the original error if the new index is 0, and otherwise pipes
the chunks of a recursive `self.doStream(options)` into the same
controller (its rejection or stream error terminating the caller's
stream). `clock t` is the `Date.now()` reading of the `t`-th (recursion
depth) call. The source recursion has no termination guarantee, so the
model spends one unit of fuel per call and answers `none` when out of
fuel. -/
def doStreamAux (sr : JSValue → Bool) (env : Nat → Except JSValue BackendStream)
    (clock : Nat → Int) : FallbackState → Nat → Nat → Option StreamCallResult
  | _, _, 0 => none
  | st, tick, fuel + 1 =>
    match retry sr env (checkAndResetModel st (clock tick)) with
    | none => none
    | some t =>
      match t.result with
      | .error e => some ⟨.error e, t.state, t.attempts, t.notified⟩
      | .ok s =>
        match runAttempt sr s with
        | .completed em _ =>
          some ⟨.ok ⟨em, .ok ()⟩, t.state, t.attempts, t.notified⟩
        | .failed em hasAny e =>
          if !hasAny || t.state.retryAfterOutput then
            if (switchToNextModel t.state).currentModelIndex = 0 then
              some ⟨.ok ⟨em, .error e⟩, switchToNextModel t.state, t.attempts,
                    t.notified ++ [(e, t.state.currentModelIndex)]⟩
            else
              match doStreamAux sr env clock (switchToNextModel t.state) (tick + 1) fuel with
              | none => none
              | some r =>
                match r.outcome with
                | .error e2 =>
                  some ⟨.ok ⟨em, .error e2⟩, r.state, t.attempts ++ r.dispatched,
                        t.notified ++ (e, t.state.currentModelIndex) :: r.notified⟩
                | .ok cs =>
                  some ⟨.ok ⟨em ++ cs.emitted, cs.terminal⟩, r.state,
                        t.attempts ++ r.dispatched,
                        t.notified ++ (e, t.state.currentModelIndex) :: r.notified⟩
          else
            some ⟨.ok ⟨em, .error e⟩, t.state, t.attempts,
                  t.notified ++ [(e, t.state.currentModelIndex)]⟩

/-! ## Reference classifiers written from the specification's words
(used to compare the source classifier against the spec, claim C4) -/

/-- The status codes the specification calls retryable:
\x7b401, 403, 408, 409, 413, 429, 498\x7d. -/
def specRetryableStatusCodes : List Int :=
  [401, 403, 408, 409, 413, 429, 498]

/-- The message substrings the specification lists as retryable markers. -/
def specRetryableSubstrings : List String :=
  ["overloaded", "rate limit", "rate_limit", "ratelimit", "timeout",
   "service unavailable", "bad gateway", "internal server error",
   "gateway timeout", "429", "500", "502", "503", "504"]

/-- The claim's reference definition of the default classifier: an error
carrying a numeric status code is retryable exactly when the code is in
`specRetryableStatusCodes` or at least 500; otherwise the message (or, for
a structured non-string value, its serialized form) is searched
case-insensitively for the listed substrings; everything else is fatal. -/
def specShouldRetryThisError (error : JSValue) : Bool :=
  match jsGet error "statusCode" with
  | .numV n => specRetryableStatusCodes.contains n || 500 ≤ n
  | _ =>
    match jsGet error "message" with
    | .strV s => specRetryableSubstrings.any fun t => strContains (jsToLower s) t
    | _ =>
      if jsTruthy error && jsIsObject error then
        specRetryableSubstrings.any fun t => strContains (jsToLower (jsonStringify error)) t
      else
        false

/-- The status-code rule the source actually implements, spelled out the
way the amended claim states it: a numeric status code is retryable
exactly when it is 401, 403, 408, 409, 413 or 429, or at least 500; a
string status code only through the host language's numeric coercion in
`statusCode > 500`; nothing else passes the status rule. -/
def amendedStatusRetryable : JSValue → Bool
  | .numV n => decide (n = 401 ∨ n = 403 ∨ n = 408 ∨ n = 409 ∨ n = 413 ∨ n = 429 ∨ 500 ≤ n)
  | .strV s =>
    match s.toInt? with
    | some n => decide (500 < n)
    | none => false
  | _ => false

/-- The amended reference classifier: the status rule above; otherwise, a
truthy message is searched for the source's substring list when it is a
string (a truthy non-string message raises a TypeError); otherwise a
non-null object error is searched through its serialization; everything
else is fatal. -/
def amendedShouldRetryThisError (error : JSValue) : Except Unit Bool :=
  if amendedStatusRetryable (jsGet error "statusCode") then
    .ok true
  else if jsTruthy (jsGet error "message") then
    match jsGet error "message" with
    | .strV s => .ok (matchesRetryableText (jsToLower s))
    | _ => .error ()
  else if jsTruthy error && jsIsObject error then
    .ok (matchesRetryableText (jsToLower (jsonStringify error)))
  else
    .ok false

/-! ## Concrete scenario material for counterexamples and witnesses -/

/-- A custom classifier accepting every error. -/
def alwaysRetry : JSValue → Bool := fun _ => true

/-- A custom classifier rejecting every error (every error is fatal). -/
def neverRetry : JSValue → Bool := fun _ => false

/-- A concrete error value whose text matches no retryable marker. -/
def boom : JSValue := .strV "boom"

/-- A clock that always reads 0. -/
def zeroClock : Nat → Int := fun _ => 0

/-- Backends for the C2 counterexample: backend 0's stream fails out-of-band
before any output, backend 1 streams one chunk and closes. -/
def c2CexEnv : Nat → Except JSValue BackendStream :=
  fun i => if i = 0 then .ok ⟨[], .errored boom⟩ else .ok ⟨[.content "hi"], .normal⟩

/-- Backends for the C3 counterexample: backend 1's stream fails before any
output, backend 0 is healthy. -/
def c3CexEnv : Nat → Except JSValue BackendStream :=
  fun i => if i = 1 then .ok ⟨[], .errored boom⟩ else .ok ⟨[.content "rescued"], .normal⟩

/-- Backends for the C1 witness: backend 0 emits metadata plus one content
chunk and then fails, backend 1 streams one chunk and closes. -/
def c1WitEnv : Nat → Except JSValue BackendStream :=
  fun i => if i = 0 then .ok ⟨[.streamStart, .content "a"], .errored boom⟩
           else .ok ⟨[.content "b"], .normal⟩

/-- Backends for the C2-amended witness: backend 0 emits one content chunk
and then fails, backend 1 is healthy. -/
def c2WitEnv : Nat → Except JSValue BackendStream :=
  fun i => if i = 0 then .ok ⟨[.content "x"], .errored boom⟩
           else .ok ⟨[.content "hi"], .normal⟩

/-- Backends for the C8 witness: backend 0 emits a content chunk, then an
in-band error chunk, then closes normally. -/
def c8WitEnv : Nat → Except JSValue BackendStream :=
  fun i => if i = 0 then .ok ⟨[.content "x", .errorChunk boom], .normal⟩
           else .ok ⟨[.content "hi"], .normal⟩

/-- Generate backends for the C6 counterexample: backend 0 throws a
retryable error, backend 1 answers. -/
def c6Gen : Nat → Except JSValue JSValue :=
  fun i => if i = 0 then .error boom else .ok (.strV "done")

/-- Generate backends in which every backend of a two-model list fails,
with distinguishable errors (C5 witness). -/
def c5Gen : Nat → Except JSValue JSValue := fun i => .error (.numV i)

/-! ## Helper lemmas -/

/-- The lazy-reset check is a no-op when the interval has not elapsed or the
current model is already the primary. -/
lemma checkAndResetModel_eq_self (st : FallbackState) (now : Int)
    (h : now - st.lastModelReset < st.modelResetInterval ∨ st.currentModelIndex = 0) :
    checkAndResetModel st now = st := by
  unfold checkAndResetModel
  rw [if_neg]
  rcases h with h | h
  · rintro ⟨h1, -⟩; omega
  · rintro ⟨-, h2⟩; exact h2 h

/-- `switchToNextModel` only rewrites the index. -/
lemma switchToNextModel_fields (st : FallbackState) :
    (switchToNextModel st).numModels = st.numModels
    ∧ (switchToNextModel st).lastModelReset = st.lastModelReset
    ∧ (switchToNextModel st).modelResetInterval = st.modelResetInterval
    ∧ (switchToNextModel st).retryAfterOutput = st.retryAfterOutput :=
  ⟨rfl, rfl, rfl, rfl⟩

/-- A first attempt that succeeds ends `retry` at once: the state is
untouched, there is a single attempted index and no notification. -/
lemma retry_first_ok {α : Type} (sr : JSValue → Bool) (fn : Nat → Except JSValue α)
    (st : FallbackState) (a : α) (h : fn st.currentModelIndex = .ok a) :
    retry sr fn st = some ⟨.ok a, st, [st.currentModelIndex], []⟩ := by
  unfold retry retryGo
  rw [h]

/-- Relaying a chunk list free of in-band error chunks forwards every chunk;
`hasStreamedAny` ends up set as soon as any chunk other than
`stream-start` was seen. -/
lemma relayChunks_clean (sr : JSValue → Bool) (h : Bool) (cs : List Chunk)
    (hcs : ∀ c ∈ cs, chunkErrorVal c = none) :
    relayChunks sr h cs = .completed cs (h || cs.any fun c => !chunkIsStreamStart c) := by
  induction cs generalizing h with
  | nil => simp [relayChunks]
  | cons c cs ih =>
    have hc : chunkErrorVal c = none := hcs c (List.mem_cons_self c cs)
    have hrest : ∀ x ∈ cs, chunkErrorVal x = none := fun x hx => hcs x (List.mem_cons_of_mem c hx)
    simp only [relayChunks, hc, ih _ hrest, consEmit, List.any_cons]
    rw [Bool.or_assoc]

/-- A dispatch-phase result whose stream is clean and closes normally makes
`doStream` deliver exactly those chunks and close, with no state change,
one dispatch and no notification. -/
lemma doStreamAux_clean_ok (sr : JSValue → Bool) (env : Nat → Except JSValue BackendStream)
    (clock : Nat → Int) (st : FallbackState) (tick f : Nat) (cs : List Chunk)
    (hres : checkAndResetModel st (clock tick) = st)
    (henv : env st.currentModelIndex = .ok ⟨cs, .normal⟩)
    (hcs : ∀ c ∈ cs, chunkErrorVal c = none) :
    doStreamAux sr env clock st tick (f + 1) =
      some ⟨.ok ⟨cs, .ok ()⟩, st, [st.currentModelIndex], []⟩ := by
  unfold doStreamAux
  rw [hres]
  simp [retry_first_ok sr env st _ henv, runAttempt, relayChunks_clean sr false cs hcs]

/-- A stream that fails out-of-band after clean chunks, when output was
already delivered and `retryAfterOutput` is off: the caller's stream ends
with the error, the state is untouched, no switch happens. -/
lemma doStreamAux_fail_noRecover (sr : JSValue → Bool) (env : Nat → Except JSValue BackendStream)
    (clock : Nat → Int) (st : FallbackState) (tick f : Nat) (cs : List Chunk) (e : JSValue)
    (hres : checkAndResetModel st (clock tick) = st)
    (henv : env st.currentModelIndex = .ok ⟨cs, .errored e⟩)
    (hcs : ∀ c ∈ cs, chunkErrorVal c = none)
    (hhas : (cs.any fun c => !chunkIsStreamStart c) = true)
    (hrao : st.retryAfterOutput = false) :
    doStreamAux sr env clock st tick (f + 1) =
      some ⟨.ok ⟨cs, .error e⟩, st, [st.currentModelIndex],
            [(e, st.currentModelIndex)]⟩ := by
  unfold doStreamAux
  rw [hres]
  simp [retry_first_ok sr env st _ henv, runAttempt, relayChunks_clean sr false cs hcs,
        hhas, hrao]

/-- A stream that fails out-of-band after clean chunks, with recovery
allowed and the post-switch index landing on 0: recovery aborts, the
caller's stream ends with the original error, only this backend was
dispatched. -/
lemma doStreamAux_fail_abort (sr : JSValue → Bool) (env : Nat → Except JSValue BackendStream)
    (clock : Nat → Int) (st : FallbackState) (tick f : Nat) (cs : List Chunk) (e : JSValue)
    (hres : checkAndResetModel st (clock tick) = st)
    (henv : env st.currentModelIndex = .ok ⟨cs, .errored e⟩)
    (hcs : ∀ c ∈ cs, chunkErrorVal c = none)
    (hcond : (cs.any fun c => !chunkIsStreamStart c) = false ∨ st.retryAfterOutput = true)
    (habort : (st.currentModelIndex + 1) % st.numModels = 0) :
    doStreamAux sr env clock st tick (f + 1) =
      some ⟨.ok ⟨cs, .error e⟩, switchToNextModel st, [st.currentModelIndex],
            [(e, st.currentModelIndex)]⟩ := by
  unfold doStreamAux
  rw [hres]
  have hrec : (!(cs.any fun c => !chunkIsStreamStart c) || st.retryAfterOutput) = true := by
    rcases hcond with h | h <;> simp [h]
  simp [retry_first_ok sr env st _ henv, runAttempt, relayChunks_clean sr false cs hcs,
        hrec, switchToNextModel, habort]

/-- A stream that fails out-of-band after clean chunks, with recovery
allowed and the post-switch index nonzero: the recursive `doStream`'s
stream is piped after the already-delivered chunks. -/
lemma doStreamAux_fail_recover (sr : JSValue → Bool) (env : Nat → Except JSValue BackendStream)
    (clock : Nat → Int) (st : FallbackState) (tick f : Nat) (cs : List Chunk) (e : JSValue)
    (r : StreamCallResult) (cs1 : CallerStream)
    (hres : checkAndResetModel st (clock tick) = st)
    (henv : env st.currentModelIndex = .ok ⟨cs, .errored e⟩)
    (hcs : ∀ c ∈ cs, chunkErrorVal c = none)
    (hcond : (cs.any fun c => !chunkIsStreamStart c) = false ∨ st.retryAfterOutput = true)
    (hnz : (st.currentModelIndex + 1) % st.numModels ≠ 0)
    (hrec : doStreamAux sr env clock (switchToNextModel st) (tick + 1) f = some r)
    (hout : r.outcome = .ok cs1) :
    doStreamAux sr env clock st tick (f + 1) =
      some ⟨.ok ⟨cs ++ cs1.emitted, cs1.terminal⟩, r.state,
            st.currentModelIndex :: r.dispatched,
            (e, st.currentModelIndex) :: r.notified⟩ := by
  unfold doStreamAux
  rw [hres]
  have hrecov : (!(cs.any fun c => !chunkIsStreamStart c) || st.retryAfterOutput) = true := by
    rcases hcond with h | h <;> simp [h]
  have hidx2 : (switchToNextModel st).currentModelIndex = (st.currentModelIndex + 1) % st.numModels := rfl
  simp [retry_first_ok sr env st _ henv, runAttempt, relayChunks_clean sr false cs hcs,
        hrecov, hidx2, hnz, hrec, hout]

/-- The first model `retry` attempts is the one current on entry to the
loop. -/
lemma retryGo_attempts_head {α : Type} (sr : JSValue → Bool) (fn : Nat → Except JSValue α)
    (im : Nat) (st : FallbackState) (fuel : Nat) (t : RetryTrace α)
    (h : retryGo sr fn im st fuel = some t) :
    t.attempts.head? = some st.currentModelIndex := by
  cases fuel with
  | zero => simp [retryGo] at h
  | succ fuel =>
    unfold retryGo at h
    split at h
    · cases h; rfl
    · split at h
      · cases h; rfl
      · split at h
        · cases h; rfl
        · split at h
          · cases h
          · cases h; rfl

/-- `retryGo` never changes the number of models. -/
lemma retryGo_numModels {α : Type} (sr : JSValue → Bool) (fn : Nat → Except JSValue α)
    (im : Nat) (st : FallbackState) (fuel : Nat) (t : RetryTrace α)
    (h : retryGo sr fn im st fuel = some t) :
    t.state.numModels = st.numModels := by
  induction fuel generalizing st t with
  | zero => simp [retryGo] at h
  | succ fuel ih =>
    unfold retryGo at h
    split at h
    · cases h; rfl
    · split at h
      · cases h; rfl
      · split at h
        · cases h; rfl
        · split at h
          · cases h
          · rename_i t' heq
            cases h
            exact ih (switchToNextModel st) t' heq

/-- `retryGo` keeps the current index within bounds. -/
lemma retryGo_idx_lt {α : Type} (sr : JSValue → Bool) (fn : Nat → Except JSValue α)
    (im : Nat) (st : FallbackState) (fuel : Nat) (t : RetryTrace α)
    (hidx : st.currentModelIndex < st.numModels)
    (h : retryGo sr fn im st fuel = some t) :
    t.state.currentModelIndex < t.state.numModels := by
  induction fuel generalizing st t with
  | zero => simp [retryGo] at h
  | succ fuel ih =>
    have hpos : 0 < st.numModels := Nat.lt_of_le_of_lt (Nat.zero_le _) hidx
    unfold retryGo at h
    split at h
    · cases h; exact hidx
    · split at h
      · cases h; exact hidx
      · split at h
        · cases h
          exact Nat.mod_lt _ hpos
        · split at h
          · cases h
          · rename_i t' heq
            cases h
            exact ih (switchToNextModel st) t' (Nat.mod_lt _ hpos) heq

/-- The lazy-reset check keeps the index within bounds and the model count
unchanged. -/
lemma checkAndResetModel_inv (st : FallbackState) (now : Int)
    (hidx : st.currentModelIndex < st.numModels) :
    (checkAndResetModel st now).currentModelIndex < (checkAndResetModel st now).numModels := by
  unfold checkAndResetModel
  split
  · exact Nat.lt_of_le_of_lt (Nat.zero_le _) hidx
  · exact hidx

/-- `checkAndResetModel` never changes the model count. -/
lemma checkAndResetModel_numModels (st : FallbackState) (now : Int) :
    (checkAndResetModel st now).numModels = st.numModels := by
  unfold checkAndResetModel
  split <;> rfl

/-- The first model `doStream` dispatches is the one current right after the
lazy-reset check. -/
lemma doStreamAux_dispatched_head (sr : JSValue → Bool)
    (env : Nat → Except JSValue BackendStream) (clock : Nat → Int)
    (st : FallbackState) (tick fuel : Nat) (r : StreamCallResult)
    (h : doStreamAux sr env clock st tick fuel = some r) :
    r.dispatched.head? = some (checkAndResetModel st (clock tick)).currentModelIndex := by
  cases fuel with
  | zero => simp [doStreamAux] at h
  | succ fuel =>
    unfold doStreamAux at h
    split at h
    · cases h
    · rename_i t hretry
      have hhead := retryGo_attempts_head sr env _ _ _ t hretry
      split at h
      · cases h; exact hhead
      · split at h
        · cases h; exact hhead
        · split at h
          · split at h
            · cases h; exact hhead
            · split at h
              · cases h
              · split at h <;>
                · cases h
                  simp only [StreamCallResult.dispatched]
                  cases ha : t.attempts with
                  | nil => rw [ha] at hhead; cases hhead
                  | cons a as =>
                    rw [ha] at hhead
                    simpa using hhead
          · cases h; exact hhead

/-- `doStream` keeps the current index within bounds. -/
lemma doStreamAux_idx_lt (sr : JSValue → Bool)
    (env : Nat → Except JSValue BackendStream) (clock : Nat → Int)
    (st : FallbackState) (tick fuel : Nat) (r : StreamCallResult)
    (hidx : st.currentModelIndex < st.numModels)
    (h : doStreamAux sr env clock st tick fuel = some r) :
    r.state.currentModelIndex < r.state.numModels := by
  induction fuel generalizing st tick r with
  | zero => simp [doStreamAux] at h
  | succ fuel ih =>
    have hidx1 : (checkAndResetModel st (clock tick)).currentModelIndex
        < (checkAndResetModel st (clock tick)).numModels :=
      checkAndResetModel_inv st (clock tick) hidx
    unfold doStreamAux at h
    split at h
    · cases h
    · rename_i t hretry
      have htlt : t.state.currentModelIndex < t.state.numModels :=
        retryGo_idx_lt sr env _ _ _ t hidx1 hretry
      have hpos : 0 < t.state.numModels := Nat.lt_of_le_of_lt (Nat.zero_le _) htlt
      split at h
      · cases h; exact htlt
      · split at h
        · cases h; exact htlt
        · split at h
          · split at h
            · cases h
              exact Nat.mod_lt _ hpos
            · split at h
              · cases h
              · rename_i r' hrec
                split at h <;>
                · cases h
                  exact ih (switchToNextModel t.state) (tick + 1) r' (Nat.mod_lt _ hpos) hrec
          · cases h; exact htlt

/-- The retry loop when every model fails retryably: starting `k` steps into
the cycle with `m + 1` attempts left before the cycle closes, the loop
attempts exactly the models `(i0 + k + j) % N` for `j ≤ m`, notifies for
each of them, ends with the index back at `i0`, and throws the error of
the model attempted last. -/
lemma retryGo_cycle {α : Type} (sr : JSValue → Bool) (fn : Nat → Except JSValue α)
    (errOf : Nat → JSValue) (N i0 : Nat) (hi0 : i0 < N)
    (hfail : ∀ i, i < N → fn i = .error (errOf i))
    (hsr : ∀ i, i < N → sr (errOf i) = true) :
    ∀ (m k : Nat) (st : FallbackState) (fuel : Nat),
      k + m + 1 = N →
      st.numModels = N →
      st.currentModelIndex = (i0 + k) % N →
      m + 1 ≤ fuel →
      retryGo sr fn i0 st fuel =
        some ⟨.error (errOf ((i0 + (N - 1)) % N)),
              { st with currentModelIndex := i0 },
              (List.range (m + 1)).map (fun j => (i0 + k + j) % N),
              (List.range (m + 1)).map
                (fun j => (errOf ((i0 + k + j) % N), (i0 + k + j) % N))⟩ := by
  have hpos : 0 < N := Nat.lt_of_le_of_lt (Nat.zero_le _) hi0
  intro m
  induction m with
  | zero =>
    intro k st fuel hk hnm hcur hfuel
    obtain ⟨f, rfl⟩ : ∃ f, fuel = f + 1 := ⟨fuel - 1, by omega⟩
    have hlt : st.currentModelIndex < N := by
      rw [hcur]; exact Nat.mod_lt _ hpos
    have harith : ((i0 + k) % N + 1) % N = i0 := by
      rw [Nat.mod_add_mod]
      have h2 : i0 + k + 1 = i0 + N := by omega
      rw [h2, Nat.add_mod_right, Nat.mod_eq_of_lt hi0]
    have hsw2 : switchToNextModel st = { st with currentModelIndex := i0 } := by
      unfold switchToNextModel
      rw [hcur, hnm, harith]
    have hk' : N - 1 = k := by omega
    have hatt : (List.range (0 + 1)).map (fun j => (i0 + k + j) % N)
        = [st.currentModelIndex] := by
      rw [hcur]; simp [List.range_succ]
    have hnot : (List.range (0 + 1)).map
          (fun j => (errOf ((i0 + k + j) % N), (i0 + k + j) % N))
        = [(errOf st.currentModelIndex, st.currentModelIndex)] := by
      rw [hcur]; simp [List.range_succ]
    unfold retryGo
    rw [hfail _ hlt]
    dsimp only
    rw [if_neg (show ¬(sr (errOf st.currentModelIndex) = false) by
      simp [hsr _ hlt])]
    rw [hsw2]
    rw [if_pos rfl]
    rw [hatt, hnot, hk', ← hcur]
  | succ m ih =>
    intro k st fuel hk hnm hcur hfuel
    obtain ⟨f, rfl⟩ : ∃ f, fuel = f + 1 := ⟨fuel - 1, by omega⟩
    have hlt : st.currentModelIndex < N := by
      rw [hcur]; exact Nat.mod_lt _ hpos
    have harith : ((i0 + k) % N + 1) % N = (i0 + (k + 1)) % N := by
      rw [Nat.mod_add_mod, Nat.add_assoc]
    have hneq : (i0 + (k + 1)) % N ≠ i0 := by
      intro hcontra
      have h1 : i0 % N = (i0 + (k + 1)) % N := by
        rw [hcontra, Nat.mod_eq_of_lt hi0]
      have h2 : N ∣ i0 + (k + 1) - i0 :=
        (Nat.modEq_iff_dvd' (Nat.le_add_right i0 (k + 1))).mp h1
      rw [Nat.add_sub_cancel_left] at h2
      have := Nat.le_of_dvd (by omega) h2
      omega
    have hsw2 : switchToNextModel st =
        { st with currentModelIndex := (i0 + (k + 1)) % N } := by
      unfold switchToNextModel
      rw [hcur, hnm, harith]
    have hIH := ih (k + 1) { st with currentModelIndex := (i0 + (k + 1)) % N } f
      (by omega) hnm rfl (by omega)
    have hatt : (List.range (m + 1 + 1)).map (fun j => (i0 + k + j) % N)
        = st.currentModelIndex
            :: (List.range (m + 1)).map (fun j => (i0 + (k + 1) + j) % N) := by
      rw [List.range_succ_eq_map, List.map_cons, List.map_map, hcur, Nat.add_zero]
      refine congrArg₂ _ rfl (List.map_congr_left ?_)
      intro j _
      have hj : i0 + k + (j + 1) = i0 + (k + 1) + j := by omega
      simp only [Function.comp_apply, Nat.succ_eq_add_one, hj]
    have hnot : (List.range (m + 1 + 1)).map
          (fun j => (errOf ((i0 + k + j) % N), (i0 + k + j) % N))
        = (errOf st.currentModelIndex, st.currentModelIndex)
            :: (List.range (m + 1)).map
                (fun j => (errOf ((i0 + (k + 1) + j) % N), (i0 + (k + 1) + j) % N)) := by
      rw [List.range_succ_eq_map, List.map_cons, List.map_map, hcur, Nat.add_zero]
      refine congrArg₂ _ rfl (List.map_congr_left ?_)
      intro j _
      have hj : i0 + k + (j + 1) = i0 + (k + 1) + j := by omega
      simp only [Function.comp_apply, Nat.succ_eq_add_one, hj]
    unfold retryGo
    rw [hfail _ hlt]
    dsimp only
    rw [if_neg (show ¬(sr (errOf st.currentModelIndex) = false) by
      simp [hsr _ hlt])]
    rw [hsw2]
    rw [if_neg (show ¬(({ st with currentModelIndex := (i0 + (k + 1)) % N } :
        FallbackState).currentModelIndex = i0) from hneq)]
    rw [hIH, hatt, hnot]

/-- The source's status-code test (truthiness guard, membership in
`retryableStatusCodes`, and the coercing `> 500` comparison) coincides
with the amended claim's formulation of the status rule. -/
lemma statusRule_eq_amended (sc : JSValue) :
    (jsTruthy sc && (statusCodeInRetryList sc || statusCodeAbove500 sc))
      = amendedStatusRetryable sc := by
  cases sc with
  | nullV => rfl
  | undefV => rfl
  | boolV b => cases b <;> rfl
  | objV fields => rfl
  | numV n =>
    simp only [jsTruthy, statusCodeInRetryList, statusCodeAbove500,
               amendedStatusRetryable, retryableStatusCodes]
    rw [Bool.eq_iff_iff]
    simp only [Bool.and_eq_true, Bool.or_eq_true, decide_eq_true_eq,
               List.contains, List.elem_iff, List.mem_cons, List.not_mem_nil, or_false]
    omega
  | strV s =>
    simp only [jsTruthy, statusCodeInRetryList, statusCodeAbove500,
               amendedStatusRetryable]
    cases hto : s.toInt? with
    | none => simp
    | some n =>
      have hne : s ≠ "" := by
        intro hempty
        rw [hempty] at hto
        cases hto
      simp [hne]

/-! ## Claim C4 — the default classifier versus the spec's reference
definition -/

/-- C4 counterexample: the error `\x7b statusCode: 498, message: "x" \x7d`
carries the numeric status code 498, which the claim's reference
definition declares retryable, but the source classifier returns `false`
for it (498 is not in the source's status list and not above 500, and the
message matches no substring). -/
theorem c4_counterexample :
    defaultShouldRetryThisError (.objV [("statusCode", .numV 498), ("message", .strV "x")])
        = .ok false
    ∧ specShouldRetryThisError (.objV [("statusCode", .numV 498), ("message", .strV "x")])
        = true :=
  ⟨rfl, rfl⟩

/-- C4 amended: the default classifier equals the amended reference
definition: a status code passes the status rule exactly when it is the
number 401, 403, 408, 409, 413 or 429, or at least 500 (a string code only
via numeric coercion above 500); an error failing the status rule falls
through to the message test — a truthy string message is retryable
exactly when it contains one of the source's substrings (which include
"rate_limit" but not "rate limit", "ratelimit" or 498), a truthy
non-string message raises a TypeError, and otherwise a non-null object
error is searched through its serialization; everything else is fatal. -/
theorem c4_classifier_amended (e : JSValue) :
    defaultShouldRetryThisError e = amendedShouldRetryThisError e := by
  unfold defaultShouldRetryThisError amendedShouldRetryThisError
  dsimp only
  rw [statusRule_eq_amended]

/-! ## Claim C10 — totality of the default classifier -/

/-- C10 counterexample: on the error `\x7b message: true \x7d` the source
classifier does not return a boolean: `error.message` is truthy but not a
string, so `error.message.toLowerCase()` raises a TypeError. -/
theorem c10_counterexample :
    defaultShouldRetryThisError (.objV [("message", .boolV true)]) = .error () :=
  rfl

/-- C10 amended: the default classifier is deterministic and returns `false`
for `null`, `undefined`, every number and every plain string — even a
string such as "timeout" whose text contains a retryable marker — because
only the `message` property of an error, or the serialization of a
non-null object, is inspected; it fails to return a boolean exactly when
the error fails the status rule and its `message` property is truthy but
not a string (a TypeError), and is total everywhere else. -/
theorem c10_classifier_totality :
    defaultShouldRetryThisError .nullV = .ok false
    ∧ defaultShouldRetryThisError .undefV = .ok false
    ∧ (∀ n : Int, defaultShouldRetryThisError (.numV n) = .ok false)
    ∧ (∀ s : String, defaultShouldRetryThisError (.strV s) = .ok false)
    ∧ defaultShouldRetryThisError (.strV "timeout") = .ok false
    ∧ (∀ e : JSValue, defaultShouldRetryThisError e = .error () ↔
        ((jsTruthy (jsGet e "statusCode")
            && (statusCodeInRetryList (jsGet e "statusCode")
                || statusCodeAbove500 (jsGet e "statusCode"))) = false
         ∧ jsTruthy (jsGet e "message") = true
         ∧ ∀ s : String, jsGet e "message" ≠ .strV s)) := by
  refine ⟨rfl, rfl, ?_, ?_, rfl, ?_⟩
  · intro n
    simp [defaultShouldRetryThisError, jsGet, jsTruthy, jsIsObject]
  · intro s
    simp [defaultShouldRetryThisError, jsGet, jsTruthy, jsIsObject]
  · intro e
    unfold defaultShouldRetryThisError
    dsimp only
    split
    · rename_i hcond
      constructor
      · intro h; cases h
      · rintro ⟨h1, -, -⟩
        rw [hcond] at h1
        cases h1
    · rename_i hcond
      split
      · rename_i hmsg
        split
        · rename_i s hs
          constructor
          · intro h; cases h
          · rintro ⟨-, -, hall⟩
            exact absurd hs (hall s)
        · rename_i hnostr
          refine ⟨fun _ => ⟨?_, hmsg, ?_⟩, fun _ => rfl⟩
          · rcases Bool.eq_false_or_eq_true
                (jsTruthy (jsGet e "statusCode")
                  && (statusCodeInRetryList (jsGet e "statusCode")
                      || statusCodeAbove500 (jsGet e "statusCode"))) with h | h
            · exact absurd h hcond
            · exact h
          · intro s hstr
            exact hnostr s hstr
      · rename_i hmsg
        have hmsg2 : jsTruthy (jsGet e "message") = false := by
          rcases Bool.eq_false_or_eq_true (jsTruthy (jsGet e "message")) with h | h
          · exact absurd h hmsg
          · exact h
        split
        · constructor
          · intro h; cases h
          · rintro ⟨-, h2, -⟩
            rw [hmsg2] at h2
            cases h2
        · constructor
          · intro h; cases h
          · rintro ⟨-, h2, -⟩
            rw [hmsg2] at h2
            cases h2

/-! ## Claim C6 — what the switching primitive updates -/

/-- C6 counterexample: a model constructed at time 5 (so
`lastModelReset = 5`) switches away from index 0 during a `doGenerate`
call issued at time 100 (backend 0 fails retryably, backend 1 answers);
after the call `currentModelIndex = 1` but `lastModelReset` is still 5,
not the switch instant — `switchToNextModel` never touches the
timestamp. -/
theorem c6_counterexample :
    doGenerate alwaysRetry c6Gen ⟨2, 0, 5, 180000, true⟩ 100 =
      some ⟨.ok (.strV "done"), ⟨2, 1, 5, 180000, true⟩, [0, 1], [(boom, 0)]⟩ :=
  rfl

/-- C6 amended: `switchToNextModel` sets `currentModelIndex` to
`(currentModelIndex + 1) % numModels` and changes nothing else; in
particular `lastModelReset` keeps whatever instant the constructor or the
last lazy reset wrote, not the instant of the last switch. -/
theorem c6_switch_frame (st : FallbackState) :
    switchToNextModel st
        = { st with currentModelIndex := (st.currentModelIndex + 1) % st.numModels }
    ∧ (switchToNextModel st).lastModelReset = st.lastModelReset
    ∧ (switchToNextModel st).numModels = st.numModels
    ∧ (switchToNextModel st).modelResetInterval = st.modelResetInterval
    ∧ (switchToNextModel st).retryAfterOutput = st.retryAfterOutput :=
  ⟨rfl, rfl, rfl, rfl, rfl⟩

/-! ## Claim C7 — the lazy reset is observed at the start of every call -/

/-- C7: with `resetInterval = T`, if the index moved away from 0 at some
instant `t` (so the recorded timestamp is at most `t`, since switching
does not update it), then any call dispatched at `now ≥ t + T` observes
index 0 at dispatch: `checkAndResetModel` fires, and both `doGenerate`
and `doStream` make their first attempt against model 0. -/
theorem c7_lazy_reset (st : FallbackState) (t now : Int)
    (hnz : st.currentModelIndex ≠ 0)
    (hlast : st.lastModelReset ≤ t)
    (hnow : t + st.modelResetInterval ≤ now) :
    (checkAndResetModel st now).currentModelIndex = 0
    ∧ (∀ (sr : JSValue → Bool) (gen : Nat → Except JSValue JSValue)
          (tr : RetryTrace JSValue),
        doGenerate sr gen st now = some tr → tr.attempts.head? = some 0)
    ∧ (∀ (sr : JSValue → Bool) (env : Nat → Except JSValue BackendStream)
          (clock : Nat → Int) (tick fuel : Nat) (r : StreamCallResult),
        clock tick = now →
        doStreamAux sr env clock st tick fuel = some r →
        r.dispatched.head? = some 0) := by
  have hreset : (checkAndResetModel st now).currentModelIndex = 0 := by
    unfold checkAndResetModel
    rw [if_pos ⟨by omega, hnz⟩]
  refine ⟨hreset, ?_, ?_⟩
  · intro sr gen tr h
    unfold doGenerate retry at h
    have := retryGo_attempts_head sr gen _ _ _ tr h
    rw [hreset] at this
    exact this
  · intro sr env clock tick fuel r hclock h
    have := doStreamAux_dispatched_head sr env clock st tick fuel r h
    rw [hclock, hreset] at this
    exact this

/-- C7 witness: a concrete two-model state that switched away from 0 at
time 0 with `resetInterval = 10`, called at time 10. -/
theorem c7_lazy_reset_witness :
    (checkAndResetModel ⟨2, 1, 0, 10, true⟩ 10).currentModelIndex = 0
    ∧ (⟨.error (.numV 1), ⟨2, 0, 10, 10, true⟩, [0, 1],
         [(.numV 0, 0), (.numV 1, 1)]⟩ : RetryTrace JSValue).attempts.head? = some 0 := by
  have h := c7_lazy_reset ⟨2, 1, 0, 10, true⟩ 0 10 (by decide) (by decide) (by decide)
  exact ⟨h.1, h.2.1 alwaysRetry c5Gen _ rfl⟩

/-! ## Claim C9 — the index invariant `0 ≤ currentModelIndex < N` -/

/-- C9: the constructor only succeeds with `currentModelIndex = 0 < N`, and
every internal operation — the lazy-reset check, the switching primitive,
the retry loop, `doGenerate` and `doStream` — keeps the current index
strictly below the (unchanged) number of models, so
`models[currentModelIndex]` always addresses an existing element. -/
theorem c9_index_invariant :
    (∀ (numModels : Nat) (mri : Option Int) (rao : Option Bool) (now : Int)
        (st : FallbackState),
      mkFallbackState numModels mri rao now = .ok st →
      st.currentModelIndex < st.numModels)
    ∧ (∀ (st : FallbackState) (now : Int),
        st.currentModelIndex < st.numModels →
        (checkAndResetModel st now).currentModelIndex
          < (checkAndResetModel st now).numModels)
    ∧ (∀ st : FallbackState, 0 < st.numModels →
        (switchToNextModel st).currentModelIndex < (switchToNextModel st).numModels)
    ∧ (∀ (sr : JSValue → Bool) (fn : Nat → Except JSValue JSValue) (im : Nat)
          (st : FallbackState) (fuel : Nat) (t : RetryTrace JSValue),
        st.currentModelIndex < st.numModels →
        retryGo sr fn im st fuel = some t →
        t.state.currentModelIndex < t.state.numModels)
    ∧ (∀ (sr : JSValue → Bool) (gen : Nat → Except JSValue JSValue)
          (st : FallbackState) (now : Int) (t : RetryTrace JSValue),
        st.currentModelIndex < st.numModels →
        doGenerate sr gen st now = some t →
        t.state.currentModelIndex < t.state.numModels)
    ∧ (∀ (sr : JSValue → Bool) (env : Nat → Except JSValue BackendStream)
          (clock : Nat → Int) (st : FallbackState) (tick fuel : Nat)
          (r : StreamCallResult),
        st.currentModelIndex < st.numModels →
        doStreamAux sr env clock st tick fuel = some r →
        r.state.currentModelIndex < r.state.numModels) := by
  refine ⟨?_, ?_, ?_, ?_, ?_, ?_⟩
  · intro numModels mri rao now st h
    unfold mkFallbackState at h
    split at h
    · cases h
    · rename_i hne
      cases h
      exact Nat.pos_of_ne_zero hne
  · exact checkAndResetModel_inv
  · intro st h
    exact Nat.mod_lt _ h
  · intro sr fn im st fuel t hidx h
    exact retryGo_idx_lt sr fn im st fuel t hidx h
  · intro sr gen st now t hidx h
    unfold doGenerate retry at h
    exact retryGo_idx_lt sr gen _ _ _ t (checkAndResetModel_inv st now hidx) h
  · intro sr env clock st tick fuel r hidx h
    exact doStreamAux_idx_lt sr env clock st tick fuel r hidx h

/-- C9 witness: the invariant at work on concrete two-model runs. -/
theorem c9_index_invariant_witness :
    ((⟨2, 0, 0, 180000, true⟩ : FallbackState).currentModelIndex
        < (⟨2, 0, 0, 180000, true⟩ : FallbackState).numModels)
    ∧ ((⟨.error (.numV 1), ⟨2, 0, 0, 180000, true⟩, [0, 1],
         [(.numV 0, 0), (.numV 1, 1)]⟩ : RetryTrace JSValue).state.currentModelIndex
        < (⟨.error (.numV 1), ⟨2, 0, 0, 180000, true⟩, [0, 1],
         [(.numV 0, 0), (.numV 1, 1)]⟩ : RetryTrace JSValue).state.numModels) := by
  refine ⟨?_, ?_⟩
  · exact (c9_index_invariant.1 2 none none 0
      ⟨2, 0, 0, 180000, true⟩ rfl)
  · exact (c9_index_invariant.2.2.2.2.1 alwaysRetry c5Gen
      ⟨2, 0, 0, 180000, true⟩ 0 _ (by decide) rfl)

/-! ## Claim C5 — full-cycle exhaustion of the generate retry loop -/

/-- C5: when every backend fails with a retryable error, `retry` attempts
exactly the `N` models `(i0 + j) % N` for `j < N` — each distinct backend
once, in cyclic order from the index `i0` current when the call began —
notifies for each of them in that order, ends with the index back at
`i0`, and fails with the error of the backend attempted last; and
`doGenerate` behaves the same when the lazy reset does not fire. -/
theorem c5_generate_exhausts_cycle (sr : JSValue → Bool)
    (gen : Nat → Except JSValue JSValue) (errOf : Nat → JSValue)
    (st : FallbackState)
    (hidx : st.currentModelIndex < st.numModels)
    (hfail : ∀ i, i < st.numModels → gen i = .error (errOf i))
    (hsr : ∀ i, i < st.numModels → sr (errOf i) = true) :
    retry sr gen st =
      some ⟨.error (errOf ((st.currentModelIndex + (st.numModels - 1)) % st.numModels)),
            st,
            (List.range st.numModels).map
              (fun j => (st.currentModelIndex + j) % st.numModels),
            (List.range st.numModels).map
              (fun j => (errOf ((st.currentModelIndex + j) % st.numModels),
                         (st.currentModelIndex + j) % st.numModels))⟩
    ∧ ((List.range st.numModels).map
        (fun j => (st.currentModelIndex + j) % st.numModels)).length = st.numModels
    ∧ ((List.range st.numModels).map
        (fun j => (st.currentModelIndex + j) % st.numModels)).Nodup
    ∧ (∀ i, i < st.numModels →
        i ∈ (List.range st.numModels).map
          (fun j => (st.currentModelIndex + j) % st.numModels))
    ∧ (∀ now : Int, now - st.lastModelReset < st.modelResetInterval →
        doGenerate sr gen st now =
          some ⟨.error (errOf ((st.currentModelIndex + (st.numModels - 1)) % st.numModels)),
                st,
                (List.range st.numModels).map
                  (fun j => (st.currentModelIndex + j) % st.numModels),
                (List.range st.numModels).map
                  (fun j => (errOf ((st.currentModelIndex + j) % st.numModels),
                             (st.currentModelIndex + j) % st.numModels))⟩) := by
  have hpos : 0 < st.numModels := Nat.lt_of_le_of_lt (Nat.zero_le _) hidx
  have hmain : retry sr gen st =
      some ⟨.error (errOf ((st.currentModelIndex + (st.numModels - 1)) % st.numModels)),
            st,
            (List.range st.numModels).map
              (fun j => (st.currentModelIndex + j) % st.numModels),
            (List.range st.numModels).map
              (fun j => (errOf ((st.currentModelIndex + j) % st.numModels),
                         (st.currentModelIndex + j) % st.numModels))⟩ := by
    unfold retry
    have h := retryGo_cycle sr gen errOf st.numModels st.currentModelIndex hidx hfail hsr
      (st.numModels - 1) 0 st (st.numModels + 1)
      (by omega) rfl (by rw [Nat.add_zero, Nat.mod_eq_of_lt hidx]) (by omega)
    rw [h]
    have hrange : st.numModels - 1 + 1 = st.numModels := by omega
    have hzero : ∀ j : Nat, st.currentModelIndex + 0 + j = st.currentModelIndex + j := by
      intro j; omega
    simp only [hrange, hzero]
  refine ⟨hmain, by simp, ?_, ?_, ?_⟩
  · refine List.Nodup.map_on ?_ (List.nodup_range _)
    intro a ha b hb hab
    rw [List.mem_range] at ha hb
    have h1 : (st.currentModelIndex + a) % st.numModels
        = (st.currentModelIndex + b) % st.numModels := hab
    have h2 : a % st.numModels = b % st.numModels :=
      Nat.ModEq.add_left_cancel' st.currentModelIndex h1
    rw [Nat.mod_eq_of_lt ha, Nat.mod_eq_of_lt hb] at h2
    exact h2
  · intro i hi
    rw [List.mem_map]
    refine ⟨(st.numModels + i - st.currentModelIndex) % st.numModels,
            List.mem_range.mpr (Nat.mod_lt _ hpos), ?_⟩
    rw [Nat.add_mod_mod]
    have h3 : st.currentModelIndex + (st.numModels + i - st.currentModelIndex)
        = st.numModels + i := by omega
    rw [h3, Nat.add_mod_left, Nat.mod_eq_of_lt hi]
  · intro now hnow
    unfold doGenerate
    rw [checkAndResetModel_eq_self st now (Or.inl hnow)]
    exact hmain

/-- C5 witness: two backends, both failing retryably, starting from the
primary: both are attempted in order, the call fails with backend 1's
error and the index is back at 0. -/
theorem c5_generate_exhausts_cycle_witness :
    retry alwaysRetry c5Gen ⟨2, 0, 0, 180000, true⟩ =
      some ⟨.error (.numV ((0 + (2 - 1)) % 2)),
            ⟨2, 0, 0, 180000, true⟩,
            (List.range 2).map (fun j : Nat => (0 + j) % 2),
            (List.range 2).map
              (fun j : Nat => (JSValue.numV ((0 + j) % 2), (0 + j) % 2))⟩ :=
  (c5_generate_exhausts_cycle alwaysRetry c5Gen (fun i => .numV i)
    ⟨2, 0, 0, 180000, true⟩ (by decide) (fun i _ => rfl) (fun i _ => rfl)).1

/-- Composition lemma behind the hand-off claims: if the current backend's
stream fails out-of-band after clean chunks, recovery is allowed, the
switch does not land on 0, and the next backend's stream is clean and
closes, then the caller sees the first backend's chunks followed by the
second backend's chunks and then a clean close, with exactly the two
dispatches and one notification. -/
lemma doStreamAux_fail_then_clean (sr : JSValue → Bool)
    (env : Nat → Except JSValue BackendStream) (clock : Nat → Int)
    (st : FallbackState) (tick f : Nat) (cs cs1 : List Chunk) (e : JSValue)
    (hres0 : checkAndResetModel st (clock tick) = st)
    (hres1 : checkAndResetModel (switchToNextModel st) (clock (tick + 1))
        = switchToNextModel st)
    (henv0 : env st.currentModelIndex = .ok ⟨cs, .errored e⟩)
    (hc0 : ∀ c ∈ cs, chunkErrorVal c = none)
    (hcond : (cs.any fun c => !chunkIsStreamStart c) = false ∨ st.retryAfterOutput = true)
    (hnz : (st.currentModelIndex + 1) % st.numModels ≠ 0)
    (henv1 : env ((st.currentModelIndex + 1) % st.numModels) = .ok ⟨cs1, .normal⟩)
    (hc1 : ∀ c ∈ cs1, chunkErrorVal c = none) :
    doStreamAux sr env clock st tick (f + 2) =
      some ⟨.ok ⟨cs ++ cs1, .ok ()⟩, switchToNextModel st,
            [st.currentModelIndex, (st.currentModelIndex + 1) % st.numModels],
            [(e, st.currentModelIndex)]⟩ := by
  have hinner := doStreamAux_clean_ok sr env clock (switchToNextModel st) (tick + 1) f cs1
    hres1 henv1 hc1
  exact doStreamAux_fail_recover sr env clock st tick (f + 1) cs e _ ⟨cs1, .ok ()⟩
    hres0 henv0 hc0 hcond hnz hinner rfl

/-! ## Claim C1 — transparent mid-stream hand-off with
`retryAfterOutput = true` -/

/-- C1: streaming with `retryAfterOutput = true` over at least two backends,
starting at the primary: if backend 0's stream emits chunks (at least one
of them real content, none of them in-band errors) and then fails, and
backend 1's stream is clean and closes, the caller's sequence is exactly
backend 0's chunks followed by backend 1's chunks — nothing duplicated,
nothing interleaved — and it ends with a clean close; exactly the two
backends were dispatched, in that order. -/
theorem c1_stream_handoff (sr : JSValue → Bool)
    (env : Nat → Except JSValue BackendStream) (clock : Nat → Int)
    (st : FallbackState) (c0 c1 : List Chunk) (e : JSValue) (f : Nat)
    (hN : 2 ≤ st.numModels)
    (hidx : st.currentModelIndex = 0)
    (hrao : st.retryAfterOutput = true)
    (henv0 : env 0 = .ok ⟨c0, .errored e⟩)
    (henv1 : env 1 = .ok ⟨c1, .normal⟩)
    (hc0 : ∀ c ∈ c0, chunkErrorVal c = none)
    (_hout : ∃ c ∈ c0, chunkIsStreamStart c = false)
    (hc1 : ∀ c ∈ c1, chunkErrorVal c = none)
    (hclk : clock 1 - st.lastModelReset < st.modelResetInterval) :
    doStreamAux sr env clock st 0 (f + 2) =
      some ⟨.ok ⟨c0 ++ c1, .ok ()⟩, { st with currentModelIndex := 1 },
            [0, 1], [(e, 0)]⟩ := by
  have h01 : (0 + 1) % st.numModels = 1 := Nat.mod_eq_of_lt (by omega)
  have hres0 : checkAndResetModel st (clock 0) = st :=
    checkAndResetModel_eq_self st _ (Or.inr hidx)
  have hsw : switchToNextModel st = { st with currentModelIndex := 1 } := by
    unfold switchToNextModel
    rw [hidx, h01]
  have hres1 : checkAndResetModel (switchToNextModel st) (clock 1)
      = switchToNextModel st :=
    checkAndResetModel_eq_self _ _ (Or.inl hclk)
  have h := doStreamAux_fail_then_clean sr env clock st 0 f c0 c1 e
    hres0 hres1 (by rw [hidx]; exact henv0) hc0 (Or.inr hrao)
    (by rw [hidx, h01]; omega) (by rw [hidx, h01]; exact henv1) hc1
  rw [h, hsw, hidx, h01]

/-- C1 witness: backend 0 streams metadata plus the content chunk "a" and
then dies; backend 1 streams "b" and closes; the caller sees
`[stream-start, "a", "b"]` and a clean close. -/
theorem c1_stream_handoff_witness :
    doStreamAux alwaysRetry c1WitEnv zeroClock ⟨2, 0, 0, 180000, true⟩ 0 2 =
      some ⟨.ok ⟨[.streamStart, .content "a", .content "b"], .ok ()⟩,
            ⟨2, 1, 0, 180000, true⟩, [0, 1], [(boom, 0)]⟩ :=
  c1_stream_handoff alwaysRetry c1WitEnv zeroClock ⟨2, 0, 0, 180000, true⟩
    [.streamStart, .content "a"] [.content "b"] boom 0
    (by decide) rfl rfl rfl rfl
    (by simp [chunkErrorVal])
    ⟨.content "a", by simp, rfl⟩
    (by simp [chunkErrorVal])
    (by decide)

/-! ## Claim C2 — what happens to a non-retryable failure during chunk
relay -/

/-- C2 counterexample: the classifier in use (`neverRetry`) classifies every
error as non-retryable, yet when backend 0's stream fails out-of-band the
catch handler — which never consults the classifier — switches to backend
1 and the caller's stream completes with backend 1's chunk: the stream is
not terminated with the error and a backend switch does occur. -/
theorem c2_counterexample :
    neverRetry boom = false
    ∧ doStreamAux neverRetry c2CexEnv zeroClock ⟨2, 0, 0, 180000, true⟩ 0 2 =
        some ⟨.ok ⟨[.content "hi"], .ok ()⟩, ⟨2, 1, 0, 180000, true⟩,
              [0, 1], [(boom, 0)]⟩ :=
  ⟨rfl, rfl⟩

/-- C2 amended: the relay's catch handler does not consult the error
classifier at all. The caller's stream is terminated with the error and
no switch occurs exactly when output has already been delivered and
`retryAfterOutput` is off (first part: state, dispatches and
notifications show no other backend involved); in every other regime —
no output delivered yet (whatever `retryAfterOutput` says), or
`retryAfterOutput` on (whatever was delivered) — the handler switches and
hands off to the next backend whatever the classifier — here universally
quantified, with no retryability assumption — would have said (second
part, whose hypothesis is exactly that disjunction: for an error-free
chunk prefix `cs`, `hasStreamedAny` at the failure is
`cs.any (fun c => !chunkIsStreamStart c)`). -/
theorem c2_relay_failure_ignores_classifier :
    (∀ (sr : JSValue → Bool) (env : Nat → Except JSValue BackendStream)
        (clock : Nat → Int) (st : FallbackState) (cs : List Chunk) (e : JSValue)
        (f : Nat),
      checkAndResetModel st (clock 0) = st →
      env st.currentModelIndex = .ok ⟨cs, .errored e⟩ →
      (∀ c ∈ cs, chunkErrorVal c = none) →
      (cs.any fun c => !chunkIsStreamStart c) = true →
      st.retryAfterOutput = false →
      doStreamAux sr env clock st 0 (f + 1) =
        some ⟨.ok ⟨cs, .error e⟩, st, [st.currentModelIndex],
              [(e, st.currentModelIndex)]⟩)
    ∧ (∀ (sr : JSValue → Bool) (env : Nat → Except JSValue BackendStream)
        (clock : Nat → Int) (st : FallbackState) (cs cs1 : List Chunk) (e : JSValue)
        (f : Nat),
      checkAndResetModel st (clock 0) = st →
      checkAndResetModel (switchToNextModel st) (clock 1) = switchToNextModel st →
      env st.currentModelIndex = .ok ⟨cs, .errored e⟩ →
      (∀ c ∈ cs, chunkErrorVal c = none) →
      ((cs.any fun c => !chunkIsStreamStart c) = false ∨ st.retryAfterOutput = true) →
      (st.currentModelIndex + 1) % st.numModels ≠ 0 →
      env ((st.currentModelIndex + 1) % st.numModels) = .ok ⟨cs1, .normal⟩ →
      (∀ c ∈ cs1, chunkErrorVal c = none) →
      doStreamAux sr env clock st 0 (f + 2) =
        some ⟨.ok ⟨cs ++ cs1, .ok ()⟩, switchToNextModel st,
              [st.currentModelIndex, (st.currentModelIndex + 1) % st.numModels],
              [(e, st.currentModelIndex)]⟩) := by
  constructor
  · intro sr env clock st cs e f hres henv hcs hhas hrao
    exact doStreamAux_fail_noRecover sr env clock st 0 f cs e hres henv hcs hhas hrao
  · intro sr env clock st cs cs1 e f hres0 hres1 henv0 hc0 hcond hnz henv1 hc1
    exact doStreamAux_fail_then_clean sr env clock st 0 f cs cs1 e
      hres0 hres1 henv0 hc0 hcond hnz henv1 hc1

/-- C2 amended witness, both regimes with `retryAfterOutput = false` and the
everything-is-fatal classifier. First conjunct: after backend 0 delivered
the content chunk "x", its out-of-band failure ends the caller's stream
with the error; the state is untouched and backend 1 — though healthy —
is never dispatched. Second conjunct: when backend 0 fails before any
output, the handler still switches (despite `retryAfterOutput = false`
and the classifier rejecting the error) and the caller's stream completes
from backend 1. -/
theorem c2_relay_failure_ignores_classifier_witness :
    doStreamAux neverRetry c2WitEnv zeroClock ⟨2, 0, 0, 180000, false⟩ 0 1 =
      some ⟨.ok ⟨[.content "x"], .error boom⟩, ⟨2, 0, 0, 180000, false⟩,
            [0], [(boom, 0)]⟩
    ∧ doStreamAux neverRetry c2CexEnv zeroClock ⟨2, 0, 0, 180000, false⟩ 0 2 =
        some ⟨.ok ⟨[.content "hi"], .ok ()⟩, ⟨2, 1, 0, 180000, false⟩,
              [0, 1], [(boom, 0)]⟩ :=
  ⟨c2_relay_failure_ignores_classifier.1 neverRetry c2WitEnv zeroClock
     ⟨2, 0, 0, 180000, false⟩ [.content "x"] boom 0
     rfl rfl (by simp [chunkErrorVal]) rfl rfl,
   c2_relay_failure_ignores_classifier.2 neverRetry c2CexEnv zeroClock
     ⟨2, 0, 0, 180000, false⟩ [] [.content "hi"] boom 0
     rfl rfl rfl (by simp) (Or.inl rfl) (by decide) rfl
     (by simp [chunkErrorVal])⟩

/-! ## Claim C3 — the recovery-abort condition is the hardcoded primary -/

/-- C3 counterexample: a streaming call that began at index 1 of a two-model
list fails before any output; the classifier accepts every error and
backend 0 is healthy, so under the claim's reading (abort only when the
post-advance index equals the index that began the recovery) recovery
should hand off to backend 0 and succeed. Instead the source compares the
advanced index against the hardcoded 0, aborts, ends the caller's stream
with the original error, and never dispatches backend 0. -/
theorem c3_counterexample :
    doStreamAux alwaysRetry c3CexEnv zeroClock ⟨2, 1, 0, 180000, true⟩ 0 2 =
      some ⟨.ok ⟨[], .error boom⟩, ⟨2, 0, 0, 180000, true⟩, [1], [(boom, 1)]⟩ :=
  rfl

/-- C3 amended: recovery is aborted exactly when the post-advance
`currentModelIndex` equals the hardcoded primary index 0. First part: a
call that began at the non-primary index `N - 1` is aborted with the
original error after the switch lands on 0, no matter what the rest of
`env` offers; second part: when the advanced index is nonzero, recovery
proceeds to that backend. -/
theorem c3_recovery_abort_at_primary :
    (∀ (sr : JSValue → Bool) (env : Nat → Except JSValue BackendStream)
        (clock : Nat → Int) (st : FallbackState) (cs : List Chunk) (e : JSValue)
        (f : Nat),
      st.currentModelIndex = st.numModels - 1 →
      st.currentModelIndex ≠ 0 →
      checkAndResetModel st (clock 0) = st →
      env st.currentModelIndex = .ok ⟨cs, .errored e⟩ →
      (∀ c ∈ cs, chunkErrorVal c = none) →
      ((cs.any fun c => !chunkIsStreamStart c) = false ∨ st.retryAfterOutput = true) →
      doStreamAux sr env clock st 0 (f + 1) =
        some ⟨.ok ⟨cs, .error e⟩, switchToNextModel st, [st.currentModelIndex],
              [(e, st.currentModelIndex)]⟩)
    ∧ (∀ (sr : JSValue → Bool) (env : Nat → Except JSValue BackendStream)
        (clock : Nat → Int) (st : FallbackState) (cs cs1 : List Chunk) (e : JSValue)
        (f : Nat),
      checkAndResetModel st (clock 0) = st →
      checkAndResetModel (switchToNextModel st) (clock 1) = switchToNextModel st →
      env st.currentModelIndex = .ok ⟨cs, .errored e⟩ →
      (∀ c ∈ cs, chunkErrorVal c = none) →
      ((cs.any fun c => !chunkIsStreamStart c) = false ∨ st.retryAfterOutput = true) →
      (st.currentModelIndex + 1) % st.numModels ≠ 0 →
      env ((st.currentModelIndex + 1) % st.numModels) = .ok ⟨cs1, .normal⟩ →
      (∀ c ∈ cs1, chunkErrorVal c = none) →
      doStreamAux sr env clock st 0 (f + 2) =
        some ⟨.ok ⟨cs ++ cs1, .ok ()⟩, switchToNextModel st,
              [st.currentModelIndex, (st.currentModelIndex + 1) % st.numModels],
              [(e, st.currentModelIndex)]⟩) := by
  constructor
  · intro sr env clock st cs e f hlast hnz0 hres henv hcs hcond
    have hpos : 0 < st.numModels := by
      rcases Nat.eq_zero_or_pos st.numModels with h | h
      · rw [h] at hlast; simp at hlast; exact absurd hlast hnz0
      · exact h
    have habort : (st.currentModelIndex + 1) % st.numModels = 0 := by
      rw [hlast]
      have : st.numModels - 1 + 1 = st.numModels := by omega
      rw [this, Nat.mod_self]
    exact doStreamAux_fail_abort sr env clock st 0 f cs e hres henv hcs hcond habort
  · intro sr env clock st cs cs1 e f hres0 hres1 henv0 hc0 hcond hnz henv1 hc1
    exact doStreamAux_fail_then_clean sr env clock st 0 f cs cs1 e
      hres0 hres1 henv0 hc0 hcond hnz henv1 hc1

/-- C3 amended witness: the concrete aborted run — start at index 1 of 2,
fail before output, switch lands on 0, recovery aborted with the original
error after a single dispatch. -/
theorem c3_recovery_abort_at_primary_witness :
    doStreamAux alwaysRetry c3CexEnv zeroClock ⟨2, 1, 0, 180000, true⟩ 0 1 =
      some ⟨.ok ⟨[], .error boom⟩, switchToNextModel ⟨2, 1, 0, 180000, true⟩,
            [1], [(boom, 1)]⟩ :=
  c3_recovery_abort_at_primary.1 alwaysRetry c3CexEnv zeroClock
    ⟨2, 1, 0, 180000, true⟩ [] boom 0
    rfl (by decide) rfl rfl (by simp) (Or.inl rfl)

/-! ## Claim C8 — when an in-band error chunk counts as a stream failure -/

/-- C8: an in-band error chunk is treated as a stream failure exactly when
no real output has been delivered yet and the classifier accepts its
error (first part: the relay stops without forwarding the chunk). After
output has begun (second part), or when the error is not retryable (third
part), the chunk is forwarded like ordinary content and the relay
continues with `hasStreamedAny` set. Fourth part: a stream whose relay
completes — in particular one whose error chunks were all forwarded —
closes the caller's stream normally with no backend switch, no further
dispatch and no notification. -/
theorem c8_inband_error_gating :
    (∀ (sr : JSValue → Bool) (e : JSValue) (ds : List Chunk),
      sr e = true →
      relayChunks sr false (Chunk.errorChunk e :: ds) = .failed [] false e)
    ∧ (∀ (sr : JSValue → Bool) (e : JSValue) (ds : List Chunk),
      relayChunks sr true (Chunk.errorChunk e :: ds)
        = consEmit (Chunk.errorChunk e) (relayChunks sr true ds))
    ∧ (∀ (sr : JSValue → Bool) (e : JSValue) (ds : List Chunk),
      sr e = false →
      relayChunks sr false (Chunk.errorChunk e :: ds)
        = consEmit (Chunk.errorChunk e) (relayChunks sr true ds))
    ∧ (∀ (sr : JSValue → Bool) (env : Nat → Except JSValue BackendStream)
        (clock : Nat → Int) (st : FallbackState) (cs em : List Chunk) (h : Bool)
        (f : Nat),
      checkAndResetModel st (clock 0) = st →
      env st.currentModelIndex = .ok ⟨cs, .normal⟩ →
      relayChunks sr false cs = .completed em h →
      doStreamAux sr env clock st 0 (f + 1) =
        some ⟨.ok ⟨em, .ok ()⟩, st, [st.currentModelIndex], []⟩) := by
  refine ⟨?_, ?_, ?_, ?_⟩
  · intro sr e ds hsr
    simp [relayChunks, chunkErrorVal, hsr]
  · intro sr e ds
    simp [relayChunks, chunkErrorVal, chunkIsStreamStart]
  · intro sr e ds hsr
    simp [relayChunks, chunkErrorVal, chunkIsStreamStart, hsr]
  · intro sr env clock st cs em h f hres henv hrelay
    unfold doStreamAux
    rw [hres]
    simp [retry_first_ok sr env st _ henv, runAttempt, hrelay]

/-- C8 witness: a retryable in-band error chunk before any output is a
failure (the chunk is not forwarded); and a stream that delivers the
content chunk "x", then an in-band error chunk, then closes, reaches the
caller whole — error chunk included — with no switch, no further dispatch
and no notification. -/
theorem c8_inband_error_gating_witness :
    relayChunks alwaysRetry false [Chunk.errorChunk boom] = .failed [] false boom
    ∧ doStreamAux alwaysRetry c8WitEnv zeroClock ⟨2, 0, 0, 180000, true⟩ 0 1 =
        some ⟨.ok ⟨[.content "x", .errorChunk boom], .ok ()⟩,
              ⟨2, 0, 0, 180000, true⟩, [0], []⟩ :=
  ⟨c8_inband_error_gating.1 alwaysRetry boom [] rfl,
   c8_inband_error_gating.2.2.2 alwaysRetry c8WitEnv zeroClock
     ⟨2, 0, 0, 180000, true⟩ [.content "x", .errorChunk boom]
     [.content "x", .errorChunk boom] true 0 rfl rfl rfl⟩

end AiFallback
